import Mathlib

/-!
# The `fork` command of hub (`commands/fork.go`)

A shallow embedding of `func fork(cmd *Command, args *Args)`.

The function is a straight-line workflow over collaborators that live in other
packages (`github`, `utils`, `ui`).  Their results are inputs of the model: a `World`
fixes what every collaborator returns, `Flags` holds the three package-level flag
variables, and `Args` is the command runner's state that `fork` mutates.  A run
yields a `Run`: the collaborator calls performed, in order, the `Args` as they stand
when the function returns or halts, and the fatal error, if any.

A Go `error` is modelled by its message.  A Go result pair `(v, err)` that the code
tests with `err != nil` before using `v` is an `Except Error`.
-/

namespace Hub

/-- The message of a Go `error` value. -/
abbrev Error := String

/-- Modelled from the spec: the type `github.Project` (its declaration is in package
`github`, not in `commands/fork.go`).  The spec's HostedProject is
`{owner, name, host}`. -/
structure Project where
  Owner : String
  Name : String
  Host : String
deriving DecidableEq, Repr

/-- Modelled from the spec: `github.NewProject(owner, name, host)`, declared in package
`github`.  The spec describes the planned fork target as the project at
(target owner, source project name, source host). -/
def NewProject (owner name host : String) : Project :=
  { Owner := owner, Name := name, Host := host }

/-- Modelled from the spec: the type `github.Host`, of which the spec lists
`Host{User, Token}`. -/
structure Host where
  User : String
  AccessToken : String
deriving DecidableEq, Repr

/-- Modelled from the spec: the type `github.Remote`, the spec's RemoteReference
`{name, url}`.  The field `URL` holds the text that `URL.String()` returns. -/
structure Remote where
  Name : String
  URL : String
deriving DecidableEq, Repr

/-- Modelled from the spec: the owner record of a repository, read through
`newRepo.Owner.Login`. -/
structure User where
  Login : String
deriving DecidableEq, Repr

/-- Modelled from the spec: the declared parent of a repository, of which `fork` reads
only `HTMLURL` (the spec's `Parent *{HTMLURL}`). -/
structure ParentRepository where
  HTMLURL : String
deriving DecidableEq, Repr

/-- Modelled from the spec: the type `github.Repository` returned by the hosting-service
client, the spec's `RemoteRepo{Owner, Name, Parent *{HTMLURL}}`.  A nil `Parent`
pointer is `none`. -/
structure Repository where
  Name : String
  Owner : User
  Parent : Option ParentRepository
deriving DecidableEq, Repr

/-- Modelled from the spec: the type `github.URL`, the spec's `URL{Project}`. -/
structure URL where
  Project : Hub.Project
deriving DecidableEq, Repr

/-- The parameter bag `map[string]interface{}` handed to `ForkRepository`, as the list
of its entries. -/
abbrev Params := List (String × String)

/-- The Go map assignment `m[k] = v`: any earlier entry for `k` is replaced. -/
def mapSet (m : Params) (k v : String) : Params :=
  m.filter (fun e => e.1 != k) ++ [(k, v)]

/-- One scheduled external command: its executable and argument vector. -/
structure Cmd where
  Name : String
  Args : List String
deriving DecidableEq, Repr

/-- Modelled from the spec: the type `Args` of package `commands` (declared outside
`fork.go`).  `Noop` is the dry-run switch, `noForward` records that automatic
forwarding was suppressed, `beforeChain` is the ordered list of scheduled commands
and `afterChain` the ordered list of post-execution actions.  An action is
represented by the text it prints. -/
structure Args where
  Noop : Bool
  noForward : Bool
  beforeChain : List Cmd
  afterChain : List String
deriving DecidableEq, Repr

/-- Modelled from the spec: `args.NoForward()` suppresses automatic forwarding. -/
def Args.NoForward (a : Args) : Args :=
  { a with noForward := true }

/-- Modelled from the spec: `args.Before(command, args...)` appends one command to the
ordered list of commands to run. -/
def Args.Before (a : Args) (command : String) (args : List String) : Args :=
  { a with beforeChain := a.beforeChain ++ [{ Name := command, Args := args }] }

/-- Modelled from the spec: `args.AfterFn(fn)` appends one post-execution action. -/
def Args.AfterFn (a : Args) (fn : String) : Args :=
  { a with afterChain := a.afterChain ++ [fn] }

/-- The package-level flag variables of `fork.go` (lines 39–44). -/
structure Flags where
  flagForkNoRemote : Bool
  flagForkOrganization : String
  flagForkRemoteName : String
deriving DecidableEq, Repr

/-- The local repository accessor returned by `github.LocalRepo()`: what each of its
methods returns. -/
structure GitHubRepo where
  MainProject : Except Error Project
  OriginRemote : Except Error Remote
  RemoteByName : String → Except Error Remote

/-- The host configuration store returned by `github.CurrentConfig()`. -/
structure Config where
  PromptForHost : String → Except Error Host

/-- The hosting-service client returned by `github.NewClient(host)`. -/
structure Client where
  Repository : Project → Except Error Hub.Repository
  ForkRepository : Project → Params → Except Error Hub.Repository

/-- Everything `fork` obtains from outside `fork.go`.  `ParseURL` returns the Go pair
`(*URL, error)`, a nil pointer being `none`; `SameAs`, `GitURL` and `ProjectString`
(the `String()` method used by `%s`) are the methods of `github.Project`;
`FormatError` is `github.FormatError`. -/
structure World where
  LocalRepo : Except Error GitHubRepo
  CurrentConfig : Config
  NewClient : String → Client
  ParseURL : String → Option URL × Option Error
  SameAs : Project → Project → Bool
  GitURL : Project → String → String → Bool → String
  ProjectString : Project → String
  FormatError : String → Error → Error

/-- A call to a collaborator that reads local git state, prompts, or talks to the
hosting service, with its arguments. -/
inductive Call where
  | LocalRepo
  | MainProject
  | PromptForHost (hostname : String)
  | OriginRemote
  | RemoteByName (name : String)
  | Repository (project : Project)
  | ForkRepository (project : Project) (params : Params)
deriving DecidableEq, Repr

/-- The observable outcome of one run of `fork`: the collaborator calls in order, the
command runner state, and the error given to `utils.Check` when the run halted. -/
structure Run where
  calls : List Call
  args : Args
  fatal : Option Error
deriving DecidableEq, Repr

/-- Modelled from the spec: `utils.Check(err)` with a non-nil error (package `utils` is
outside `commands/fork.go`): every error is fatal, it is reported and the workflow
halts at once, leaving the calls made and the command runner state as they are. -/
def Check (calls : List Call) (args : Args) (err : Error) : Run :=
  { calls := calls, args := args, fatal := some err }

/-- Lines 113–124 of `fork`: suppress forwarding and, unless `--no-remote` is set,
schedule the two git commands and the confirmation. -/
def emit (w : World) (flags : Flags) (args : Args) (calls : List Call)
    (originRemote : Remote) (forkProject : Project) (newRemoteName : String) : Run :=
  let args := args.NoForward
  if !flags.flagForkNoRemote then
    let originURL := originRemote.URL
    let url := w.GitURL forkProject "" "" true
    let args := args.Before "git" ["remote", "add", "-f", newRemoteName, originURL]
    let args := args.Before "git" ["remote", "set-url", newRemoteName, url]
    let args := args.AfterFn ("new remote: " ++ newRemoteName ++ "\n")
    { calls := calls, args := args, fatal := none }
  else
    { calls := calls, args := args, fatal := none }

/-- Lines 95–99 of `fork`: the test `parentURL == nil || !project.SameAs(parentURL.Project)`
on an existing repository, where `parentURL` stays nil unless the repository declares
a parent, and is otherwise the URL that `ParseURL` returns for the parent's `HTMLURL`
(the error of `ParseURL` is discarded). -/
def parentMismatch (w : World) (project : Project) (existingRepo : Repository) : Bool :=
  let parentURL : Option URL :=
    match existingRepo.Parent with
    | some parent => (w.ParseURL parent.HTMLURL).1
    | none => none
  match parentURL with
  | none => true
  | some u => !w.SameAs project u.Project

/-- Lines 77–111 of `fork`, continued by `emit`: plan the fork owner, parameters and
remote name, look the planned repository up, and either check its parent, create
the fork, or (dry run) do nothing. -/
def planAndReconcile (w : World) (flags : Flags) (args : Args) (calls : List Call)
    (project : Project) (host : Host) (originRemote : Remote) : Run :=
  let params : Params := []
  let forkOwner := host.User
  let (forkOwner, params) :=
    if flags.flagForkOrganization != "" then
      (flags.flagForkOrganization, mapSet params "organization" flags.flagForkOrganization)
    else (forkOwner, params)
  let forkProject := NewProject forkOwner project.Name project.Host
  let newRemoteName :=
    if flags.flagForkRemoteName != "" then flags.flagForkRemoteName else forkProject.Owner
  let client := w.NewClient project.Host
  let calls := calls ++ [Call.Repository forkProject]
  match client.Repository forkProject with
  | .ok existingRepo =>
    if parentMismatch w project existingRepo then
      Check calls args ("Error creating fork: " ++ w.ProjectString forkProject
        ++ " already exists on " ++ forkProject.Host)
    else
      emit w flags args calls originRemote forkProject newRemoteName
  | .error _ =>
    if !args.Noop then
      let calls := calls ++ [Call.ForkRepository project params]
      match client.ForkRepository project params with
      | .error err => Check calls args err
      | .ok newRepo =>
        let forkProject := { forkProject with Owner := newRepo.Owner.Login }
        let forkProject := { forkProject with Name := newRepo.Name }
        emit w flags args calls originRemote forkProject newRemoteName
    else
      emit w flags args calls originRemote forkProject newRemoteName

/-- The function `fork` (lines 54–125): resolve the local repository, its main project
and the host, locate the source remote (`origin`, else `upstream`), then plan,
reconcile and emit. -/
def fork (w : World) (flags : Flags) (args : Args) : Run :=
  let calls := [Call.LocalRepo]
  match w.LocalRepo with
  | .error err => Check calls args err
  | .ok localRepo =>
    let calls := calls ++ [Call.MainProject]
    match localRepo.MainProject with
    | .error _ =>
      Check calls args "Error: repository under 'origin' remote is not a GitHub project"
    | .ok project =>
      let config := w.CurrentConfig
      let calls := calls ++ [Call.PromptForHost project.Host]
      match config.PromptForHost project.Host with
      | .error err => Check calls args (w.FormatError "forking repository" err)
      | .ok host =>
        let calls := calls ++ [Call.OriginRemote]
        match localRepo.OriginRemote with
        | .ok originRemote => planAndReconcile w flags args calls project host originRemote
        | .error _ =>
          let calls := calls ++ [Call.RemoteByName "upstream"]
          match localRepo.RemoteByName "upstream" with
          | .error _ => Check calls args "Error creating fork: No origin git remote found"
          | .ok originRemote => planAndReconcile w flags args calls project host originRemote

/-! ## Observations on a run -/

/-- The calls of a run that are `client.Repository` lookups. -/
def repositoryCalls (r : Run) : List Call :=
  r.calls.filter (fun c => match c with | Call.Repository _ => true | _ => false)

/-- The calls of a run that are `client.ForkRepository` creation requests. -/
def forkRepositoryCalls (r : Run) : List Call :=
  r.calls.filter (fun c => match c with | Call.ForkRepository _ _ => true | _ => false)

/-- The calls of a run that are `localRepo.RemoteByName` lookups. -/
def remoteByNameCalls (r : Run) : List Call :=
  r.calls.filter (fun c => match c with | Call.RemoteByName _ => true | _ => false)

/-- The fork owner of lines 78–82: the `--org` value if non-empty, else the
authenticated user. -/
def plannedOwner (flags : Flags) (host : Host) : String :=
  if flags.flagForkOrganization != "" then flags.flagForkOrganization else host.User

/-- The remote name of lines 85–90 for a given fork owner: the `--remote-name` value if
non-empty, else the owner. -/
def plannedRemoteName (flags : Flags) (owner : String) : String :=
  if flags.flagForkRemoteName != "" then flags.flagForkRemoteName else owner

/-- The parameter bag of lines 77–82: empty, or the single entry `organization` when
`--org` is non-empty. -/
def plannedParams (flags : Flags) : Params :=
  if flags.flagForkOrganization != "" then [("organization", flags.flagForkOrganization)]
  else []

/-- The project planned as the fork target (line 84). -/
def plannedProject (flags : Flags) (host : Host) (project : Project) : Project :=
  NewProject (plannedOwner flags host) project.Name project.Host

/-- The Locator finds `originRemote` on a local repository (lines 69–75): it is the
result of `OriginRemote()`, or `OriginRemote()` fails and it is the result of
`RemoteByName("upstream")`. -/
def Located (localRepo : GitHubRepo) (originRemote : Remote) : Prop :=
  localRepo.OriginRemote = .ok originRemote ∨
    ((∃ e, localRepo.OriginRemote = .error e) ∧
      localRepo.RemoteByName "upstream" = .ok originRemote)

/-- The command `git remote add -f <name> <url>`. -/
def gitRemoteAdd (name url : String) : Cmd :=
  { Name := "git", Args := ["remote", "add", "-f", name, url] }

/-- The command `git remote set-url <name> <url>`. -/
def gitRemoteSetURL (name url : String) : Cmd :=
  { Name := "git", Args := ["remote", "set-url", name, url] }

/-- The text printed by the confirmation action of lines 120–123. -/
def newRemoteNotice (name : String) : String :=
  "new remote: " ++ name ++ "\n"

/-! ## Concrete inputs -/

/-- The source project `github/hub` on `github.com`. -/
def hubProject : Project := { Owner := "github", Name := "hub", Host := "github.com" }

/-- The authenticated user `alice`. -/
def alice : Host := { User := "alice", AccessToken := "t0ken" }

/-- An `origin` remote of the source project. -/
def originOfHub : Remote := { Name := "origin", URL := "git@github.com:github/hub.git" }

/-- An `upstream` remote of the source project. -/
def upstreamOfHub : Remote :=
  { Name := "upstream", URL := "https://github.com/github/hub.git" }

/-- A checkout with both an `origin` and an `upstream` remote. -/
def checkout : GitHubRepo :=
  { MainProject := .ok hubProject
    OriginRemote := .ok originOfHub
    RemoteByName := fun n =>
      if n = "upstream" then .ok upstreamOfHub else .error "no such remote" }

/-- A checkout with an `upstream` remote only. -/
def checkoutUpstreamOnly : GitHubRepo :=
  { MainProject := .ok hubProject
    OriginRemote := .error "no remotes"
    RemoteByName := fun n =>
      if n = "upstream" then .ok upstreamOfHub else .error "no such remote" }

/-- A checkout without remotes, whose main project cannot be determined. -/
def checkoutNoRemotes : GitHubRepo :=
  { MainProject := .error "no GitHub remote"
    OriginRemote := .error "no remotes"
    RemoteByName := fun _ => .error "no such remote" }

/-- A checkout whose main project is known but whose `origin` and `upstream` lookups
both fail. -/
def checkoutNoSource : GitHubRepo :=
  { MainProject := .ok hubProject
    OriginRemote := .error "no remotes"
    RemoteByName := fun _ => .error "no such remote" }

/-- A world around a given checkout and hosting-service client, with the usual
renderings of a project and a parser that knows the web URL of `github/hub`. -/
def worldOf (localRepo : GitHubRepo) (client : Client) : World :=
  { LocalRepo := .ok localRepo
    CurrentConfig := { PromptForHost := fun _ => .ok alice }
    NewClient := fun _ => client
    ParseURL := fun s =>
      if s = "https://github.com/github/hub" then (some { Project := hubProject }, none)
      else (none, some "unsupported URL")
    SameAs := fun p q => decide (p = q)
    GitURL := fun p _ _ _ => "git@" ++ p.Host ++ ":" ++ p.Owner ++ "/" ++ p.Name ++ ".git"
    ProjectString := fun p => p.Owner ++ "/" ++ p.Name
    FormatError := fun action err => "Error " ++ action ++ ": " ++ err }

/-- A hosting service on which no repository exists yet and forking yields a
repository named after the source, owned by `owner`. -/
def freshService (owner : String) : Client :=
  { Repository := fun _ => .error "Not Found"
    ForkRepository := fun p _ => .ok { Name := p.Name, Owner := { Login := owner }, Parent := none } }

/-- A hosting service on which the looked-up repository exists and is a fork of
`github/hub`; a creation request would fail. -/
def forkedService : Client :=
  { Repository := fun p =>
      .ok { Name := p.Name, Owner := { Login := p.Owner },
            Parent := some { HTMLURL := "https://github.com/github/hub" } }
    ForkRepository := fun _ _ => .error "unexpected creation request" }

/-- A hosting service on which the looked-up repository exists but declares no
parent. -/
def occupiedService : Client :=
  { Repository := fun p => .ok { Name := p.Name, Owner := { Login := p.Owner }, Parent := none }
    ForkRepository := fun _ _ => .error "unexpected creation request" }

/-- A hosting service on which no repository exists and forking is refused. -/
def refusingService : Client :=
  { Repository := fun _ => .error "Not Found"
    ForkRepository := fun _ _ => .error "Forbidden" }

/-- No flags given. -/
def noFlags : Flags :=
  { flagForkNoRemote := false, flagForkOrganization := "", flagForkRemoteName := "" }

/-- The flags of `hub fork --org=ACME`. -/
def orgACME : Flags :=
  { flagForkNoRemote := false, flagForkOrganization := "ACME", flagForkRemoteName := "" }

/-- The flags of `hub fork --remote-name=mine`. -/
def namedMine : Flags :=
  { flagForkNoRemote := false, flagForkOrganization := "", flagForkRemoteName := "mine" }

/-- Fresh command runner state of a real run. -/
def freshArgs : Args := { Noop := false, noForward := false, beforeChain := [], afterChain := [] }

/-- Fresh command runner state of a dry run. -/
def dryArgs : Args := { Noop := true, noForward := false, beforeChain := [], afterChain := [] }

/-- The calls made by the Resolver and Locator when `origin` is found. -/
def callsViaOrigin (project : Project) : List Call :=
  [Call.LocalRepo, Call.MainProject, Call.PromptForHost project.Host, Call.OriginRemote]

/-- The calls made by the Resolver and Locator when the Locator falls back to
`upstream`. -/
def callsViaUpstream (project : Project) : List Call :=
  [Call.LocalRepo, Call.MainProject, Call.PromptForHost project.Host, Call.OriginRemote,
    Call.RemoteByName "upstream"]

/-- A list of calls holds no hosting-service call. -/
def NoServiceCall (calls : List Call) : Prop :=
  calls.filter (fun c => match c with | Call.Repository _ => true | _ => false) = [] ∧
    calls.filter (fun c => match c with | Call.ForkRepository _ _ => true | _ => false) = []

/-! ## Reduction lemmas -/

theorem noServiceCall_viaOrigin (project : Project) : NoServiceCall (callsViaOrigin project) := by
  simp [NoServiceCall, callsViaOrigin]

theorem noServiceCall_viaUpstream (project : Project) :
    NoServiceCall (callsViaUpstream project) := by
  simp [NoServiceCall, callsViaUpstream]

/-- With `origin` present, `fork` continues into the Planner with the `origin` remote. -/
theorem fork_viaOrigin (w : World) (flags : Flags) (args : Args) (localRepo : GitHubRepo)
    (project : Project) (host : Host) (originRemote : Remote)
    (hL : w.LocalRepo = .ok localRepo) (hM : localRepo.MainProject = .ok project)
    (hP : w.CurrentConfig.PromptForHost project.Host = .ok host)
    (hO : localRepo.OriginRemote = .ok originRemote) :
    fork w flags args =
      planAndReconcile w flags args (callsViaOrigin project) project host originRemote := by
  simp [fork, hL, hM, hP, hO, callsViaOrigin]

/-- Without `origin` but with `upstream`, `fork` continues into the Planner with the
`upstream` remote. -/
theorem fork_viaUpstream (w : World) (flags : Flags) (args : Args) (localRepo : GitHubRepo)
    (project : Project) (host : Host) (originRemote : Remote) (e : Error)
    (hL : w.LocalRepo = .ok localRepo) (hM : localRepo.MainProject = .ok project)
    (hP : w.CurrentConfig.PromptForHost project.Host = .ok host)
    (hO : localRepo.OriginRemote = .error e)
    (hU : localRepo.RemoteByName "upstream" = .ok originRemote) :
    fork w flags args =
      planAndReconcile w flags args (callsViaUpstream project) project host originRemote := by
  simp [fork, hL, hM, hP, hO, hU, callsViaUpstream]

/-- When the Resolver and Locator succeed, `fork` is the Planner, Reconciler and Emitter
run after a list of calls that holds no hosting-service call. -/
theorem fork_located (w : World) (flags : Flags) (args : Args) (localRepo : GitHubRepo)
    (project : Project) (host : Host) (originRemote : Remote)
    (hL : w.LocalRepo = .ok localRepo) (hM : localRepo.MainProject = .ok project)
    (hP : w.CurrentConfig.PromptForHost project.Host = .ok host)
    (hO : Located localRepo originRemote) :
    ∃ calls, NoServiceCall calls ∧
      fork w flags args = planAndReconcile w flags args calls project host originRemote := by
  rcases hO with hO | ⟨⟨e, hO⟩, hU⟩
  · exact ⟨_, noServiceCall_viaOrigin project,
      fork_viaOrigin w flags args localRepo project host originRemote hL hM hP hO⟩
  · exact ⟨_, noServiceCall_viaUpstream project,
      fork_viaUpstream w flags args localRepo project host originRemote e hL hM hP hO hU⟩

/-- The planned project, owner, parameters and remote name as `planAndReconcile`
computes them, and its lookup. -/
theorem planAndReconcile_eq (w : World) (flags : Flags) (args : Args) (calls : List Call)
    (project : Project) (host : Host) (originRemote : Remote) :
    planAndReconcile w flags args calls project host originRemote =
      match (w.NewClient project.Host).Repository (plannedProject flags host project) with
      | .ok existingRepo =>
        if parentMismatch w project existingRepo then
          Check (calls ++ [Call.Repository (plannedProject flags host project)]) args
            ("Error creating fork: " ++ w.ProjectString (plannedProject flags host project)
              ++ " already exists on " ++ (plannedProject flags host project).Host)
        else
          emit w flags args (calls ++ [Call.Repository (plannedProject flags host project)])
            originRemote (plannedProject flags host project)
            (plannedRemoteName flags (plannedOwner flags host))
      | .error _ =>
        if !args.Noop then
          match (w.NewClient project.Host).ForkRepository project (plannedParams flags) with
          | .error err =>
            Check (calls ++ [Call.Repository (plannedProject flags host project),
              Call.ForkRepository project (plannedParams flags)]) args err
          | .ok newRepo =>
            emit w flags args (calls ++ [Call.Repository (plannedProject flags host project),
              Call.ForkRepository project (plannedParams flags)]) originRemote
              { Owner := newRepo.Owner.Login, Name := newRepo.Name, Host := project.Host }
              (plannedRemoteName flags (plannedOwner flags host))
        else
          emit w flags args (calls ++ [Call.Repository (plannedProject flags host project)])
            originRemote (plannedProject flags host project)
            (plannedRemoteName flags (plannedOwner flags host)) := by
  unfold planAndReconcile plannedProject plannedRemoteName plannedOwner plannedParams
  by_cases hOrg : flags.flagForkOrganization = "" <;>
    simp [hOrg, mapSet, NewProject, List.append_assoc]

/-- The outcome of `emit`. -/
theorem emit_eq (w : World) (flags : Flags) (args : Args) (calls : List Call)
    (originRemote : Remote) (forkProject : Project) (newRemoteName : String) :
    emit w flags args calls originRemote forkProject newRemoteName =
      if flags.flagForkNoRemote then
        { calls := calls, args := args.NoForward, fatal := none }
      else
        { calls := calls
          args :=
            { Noop := args.Noop, noForward := true
              beforeChain := args.beforeChain ++
                [gitRemoteAdd newRemoteName originRemote.URL,
                  gitRemoteSetURL newRemoteName (w.GitURL forkProject "" "" true)]
              afterChain := args.afterChain ++ [newRemoteNotice newRemoteName] }
          fatal := none } := by
  unfold emit
  cases hNR : flags.flagForkNoRemote <;>
    simp [Args.NoForward, Args.Before, Args.AfterFn, gitRemoteAdd, gitRemoteSetURL,
      newRemoteNotice]

/-- The three causes listed for a repository that is not a fork of the source are
exactly the cases in which the test of lines 95–99 succeeds. -/
theorem parentMismatch_iff (w : World) (project : Project) (existingRepo : Repository) :
    parentMismatch w project existingRepo = true ↔
      (existingRepo.Parent = none ∨
        ∃ parent, existingRepo.Parent = some parent ∧
          ((w.ParseURL parent.HTMLURL).1 = none ∨
            ∃ u, (w.ParseURL parent.HTMLURL).1 = some u ∧ w.SameAs project u.Project = false)) := by
  unfold parentMismatch
  cases hPar : existingRepo.Parent with
  | none => simp
  | some parent =>
    cases hU : (w.ParseURL parent.HTMLURL).1 with
    | none => simp [hU]
    | some u => simp [hU]

/-- A parent that parses to a project that is the same as the source passes the test
of lines 95–99. -/
theorem parentMismatch_of_sameAs (w : World) (project : Project) (existingRepo : Repository)
    (parent : ParentRepository) (u : URL) (hPar : existingRepo.Parent = some parent)
    (hU : (w.ParseURL parent.HTMLURL).1 = some u) (hS : w.SameAs project u.Project = true) :
    parentMismatch w project existingRepo = false := by
  simp [parentMismatch, hPar, hU, hS]

/-! ## The claims -/

/-- C1: when the Resolver and Locator succeed and the lookup of the planned project
returns a repository that has no parent, or whose parent URL does not parse, or whose
parsed parent is not the same as the source project, the run halts with
"Error creating fork: <forkProject> already exists on <forkProject.Host>",
`ForkRepository` is never called, and no command and no notification is scheduled,
whatever the flags and the dry-run switch are. -/
theorem fork_existing_not_a_fork (w : World) (flags : Flags) (args : Args)
    (localRepo : GitHubRepo) (project : Project) (host : Host) (originRemote : Remote)
    (existingRepo : Repository)
    (hL : w.LocalRepo = .ok localRepo) (hM : localRepo.MainProject = .ok project)
    (hP : w.CurrentConfig.PromptForHost project.Host = .ok host)
    (hO : Located localRepo originRemote)
    (hR : (w.NewClient project.Host).Repository (plannedProject flags host project)
      = .ok existingRepo)
    (hBad : existingRepo.Parent = none ∨
      ∃ parent, existingRepo.Parent = some parent ∧
        ((w.ParseURL parent.HTMLURL).1 = none ∨
          ∃ u, (w.ParseURL parent.HTMLURL).1 = some u ∧ w.SameAs project u.Project = false)) :
    (fork w flags args).fatal =
        some ("Error creating fork: " ++ w.ProjectString (plannedProject flags host project)
          ++ " already exists on " ++ (plannedProject flags host project).Host) ∧
      forkRepositoryCalls (fork w flags args) = [] ∧
      (fork w flags args).args.beforeChain = args.beforeChain ∧
      (fork w flags args).args.afterChain = args.afterChain := by
  obtain ⟨calls, hNS, hEq⟩ := fork_located w flags args localRepo project host originRemote
    hL hM hP hO
  have hMis := (parentMismatch_iff w project existingRepo).mpr hBad
  rw [hEq, planAndReconcile_eq]
  simp [hR, hMis, Check, forkRepositoryCalls, List.filter_append, hNS.2]

/-- Witness for C1: `alice` runs `hub fork` while `alice/hub` exists without a parent. -/
theorem fork_existing_not_a_fork_witness :
    (fork (worldOf checkout occupiedService) noFlags freshArgs).fatal =
        some ("Error creating fork: "
          ++ (worldOf checkout occupiedService).ProjectString (plannedProject noFlags alice hubProject)
          ++ " already exists on " ++ (plannedProject noFlags alice hubProject).Host) ∧
      forkRepositoryCalls (fork (worldOf checkout occupiedService) noFlags freshArgs) = [] ∧
      (fork (worldOf checkout occupiedService) noFlags freshArgs).args.beforeChain
        = freshArgs.beforeChain ∧
      (fork (worldOf checkout occupiedService) noFlags freshArgs).args.afterChain
        = freshArgs.afterChain :=
  fork_existing_not_a_fork (worldOf checkout occupiedService) noFlags freshArgs checkout
    hubProject alice originOfHub
    { Name := "hub", Owner := { Login := "alice" }, Parent := none }
    rfl rfl rfl (Or.inl rfl) rfl (Or.inl rfl)

/-- C2: when the Resolver and Locator succeed and the lookup of the planned project
returns a repository whose parent parses to a project that is the same as the source,
`Repository` is called exactly once (on the planned project), `ForkRepository` is not
called, the run succeeds, and unless `--no-remote` is set the scheduled commands are
exactly `git remote add -f N <source remote URL>` then `git remote set-url N U`, with
`N` the `--remote-name` value if non-empty and else the fork owner, the fork owner the
`--org` value if non-empty and else the user login, and `U` the git URL of the planned
project (fork owner, source name, source host). -/
theorem fork_reuses_existing_fork (w : World) (flags : Flags) (args : Args)
    (localRepo : GitHubRepo) (project : Project) (host : Host) (originRemote : Remote)
    (existingRepo : Repository) (parent : ParentRepository) (u : URL)
    (hL : w.LocalRepo = .ok localRepo) (hM : localRepo.MainProject = .ok project)
    (hP : w.CurrentConfig.PromptForHost project.Host = .ok host)
    (hO : Located localRepo originRemote)
    (hR : (w.NewClient project.Host).Repository (plannedProject flags host project)
      = .ok existingRepo)
    (hPar : existingRepo.Parent = some parent)
    (hU : (w.ParseURL parent.HTMLURL).1 = some u)
    (hS : w.SameAs project u.Project = true) :
    repositoryCalls (fork w flags args)
        = [Call.Repository (plannedProject flags host project)] ∧
      forkRepositoryCalls (fork w flags args) = [] ∧
      (fork w flags args).fatal = none ∧
      (flags.flagForkNoRemote = false →
        (fork w flags args).args.beforeChain = args.beforeChain ++
          [gitRemoteAdd (plannedRemoteName flags (plannedOwner flags host)) originRemote.URL,
            gitRemoteSetURL (plannedRemoteName flags (plannedOwner flags host))
              (w.GitURL (NewProject (plannedOwner flags host) project.Name project.Host)
                "" "" true)]) := by
  obtain ⟨calls, hNS, hEq⟩ := fork_located w flags args localRepo project host originRemote
    hL hM hP hO
  have hMis := parentMismatch_of_sameAs w project existingRepo parent u hPar hU hS
  rw [hEq, planAndReconcile_eq]
  simp only [hR, hMis, emit_eq]
  cases hNR : flags.flagForkNoRemote <;>
    simp [repositoryCalls, forkRepositoryCalls, List.filter_append, hNS.1, hNS.2,
      plannedProject]

/-- Witness for C2: `hub fork --org=ACME` when `ACME/hub` is already a fork of
`github/hub`. -/
theorem fork_reuses_existing_fork_witness :
    repositoryCalls (fork (worldOf checkout forkedService) orgACME freshArgs)
        = [Call.Repository (plannedProject orgACME alice hubProject)] ∧
      forkRepositoryCalls (fork (worldOf checkout forkedService) orgACME freshArgs) = [] ∧
      (fork (worldOf checkout forkedService) orgACME freshArgs).fatal = none ∧
      (orgACME.flagForkNoRemote = false →
        (fork (worldOf checkout forkedService) orgACME freshArgs).args.beforeChain
          = freshArgs.beforeChain ++
          [gitRemoteAdd (plannedRemoteName orgACME (plannedOwner orgACME alice)) originOfHub.URL,
            gitRemoteSetURL (plannedRemoteName orgACME (plannedOwner orgACME alice))
              ((worldOf checkout forkedService).GitURL
                (NewProject (plannedOwner orgACME alice) hubProject.Name hubProject.Host)
                "" "" true)]) :=
  fork_reuses_existing_fork (worldOf checkout forkedService) orgACME freshArgs checkout
    hubProject alice originOfHub
    { Name := "hub", Owner := { Login := "ACME" },
      Parent := some { HTMLURL := "https://github.com/github/hub" } }
    { HTMLURL := "https://github.com/github/hub" } { Project := hubProject }
    rfl rfl rfl (Or.inl rfl) rfl rfl rfl (by decide)

/-- C3: outside dry-run mode, when the Resolver and Locator succeed, the lookup of the
planned project returns an error (whatever it is) and the creation request succeeds
with owner login `O` and name `N`, `ForkRepository` is called exactly once, on the
source project, the run succeeds, and unless `--no-remote` is set the scheduled
commands are `git remote add -f R <source remote URL>` then `git remote set-url R U`
where `U` is the git URL of the project (`O`, `N`, source host) and `R` is the remote
name planned before the request, which does not mention `O` or `N`. -/
theorem fork_creates_fork (w : World) (flags : Flags) (args : Args)
    (localRepo : GitHubRepo) (project : Project) (host : Host) (originRemote : Remote)
    (e : Error) (newRepo : Repository)
    (hL : w.LocalRepo = .ok localRepo) (hM : localRepo.MainProject = .ok project)
    (hP : w.CurrentConfig.PromptForHost project.Host = .ok host)
    (hO : Located localRepo originRemote)
    (hN : args.Noop = false)
    (hR : (w.NewClient project.Host).Repository (plannedProject flags host project)
      = .error e)
    (hF : (w.NewClient project.Host).ForkRepository project (plannedParams flags)
      = .ok newRepo) :
    forkRepositoryCalls (fork w flags args)
        = [Call.ForkRepository project (plannedParams flags)] ∧
      (fork w flags args).fatal = none ∧
      (flags.flagForkNoRemote = false →
        (fork w flags args).args.beforeChain = args.beforeChain ++
          [gitRemoteAdd (plannedRemoteName flags (plannedOwner flags host)) originRemote.URL,
            gitRemoteSetURL (plannedRemoteName flags (plannedOwner flags host))
              (w.GitURL { Owner := newRepo.Owner.Login, Name := newRepo.Name,
                          Host := project.Host } "" "" true)]) := by
  obtain ⟨calls, hNS, hEq⟩ := fork_located w flags args localRepo project host originRemote
    hL hM hP hO
  rw [hEq, planAndReconcile_eq]
  simp only [hR, hF, hN, emit_eq]
  cases hNR : flags.flagForkNoRemote <;>
    simp [forkRepositoryCalls, List.filter_append, hNS.2]

/-- Witness for C3: `hub fork --remote-name=mine` from a checkout that has only an
`upstream` remote; the service answers with the owner login `Alice`. -/
theorem fork_creates_fork_witness :
    forkRepositoryCalls (fork (worldOf checkoutUpstreamOnly (freshService "Alice")) namedMine
        freshArgs) = [Call.ForkRepository hubProject (plannedParams namedMine)] ∧
      (fork (worldOf checkoutUpstreamOnly (freshService "Alice")) namedMine freshArgs).fatal
        = none ∧
      (namedMine.flagForkNoRemote = false →
        (fork (worldOf checkoutUpstreamOnly (freshService "Alice")) namedMine
            freshArgs).args.beforeChain = freshArgs.beforeChain ++
          [gitRemoteAdd (plannedRemoteName namedMine (plannedOwner namedMine alice))
              upstreamOfHub.URL,
            gitRemoteSetURL (plannedRemoteName namedMine (plannedOwner namedMine alice))
              ((worldOf checkoutUpstreamOnly (freshService "Alice")).GitURL
                { Owner := "Alice", Name := "hub", Host := hubProject.Host } "" "" true)]) :=
  fork_creates_fork (worldOf checkoutUpstreamOnly (freshService "Alice")) namedMine freshArgs
    checkoutUpstreamOnly hubProject alice upstreamOfHub "Not Found"
    { Name := "hub", Owner := { Login := "Alice" }, Parent := none }
    rfl rfl rfl (Or.inr ⟨⟨"no remotes", rfl⟩, rfl⟩) rfl rfl rfl

/-- C4: with `--org=ACME`, no `--remote-name`, remote provisioning enabled, not a dry
run, the Resolver and Locator succeeding, no repository at (ACME, source name, source
host) and a successful creation request: the one `ForkRepository` call carries the
source project and the parameters `organization = "ACME"`, the remote name is `ACME`,
and exactly two commands are scheduled, `git remote add -f ACME <source remote URL>`
then `git remote set-url ACME U`, with `U` the git URL of the fork the service
reports, on the source host. -/
theorem fork_into_organization (w : World) (flags : Flags) (args : Args)
    (localRepo : GitHubRepo) (project : Project) (host : Host) (originRemote : Remote)
    (e : Error) (newRepo : Repository)
    (hOrg : flags.flagForkOrganization = "ACME") (hName : flags.flagForkRemoteName = "")
    (hNR : flags.flagForkNoRemote = false) (hN : args.Noop = false)
    (hL : w.LocalRepo = .ok localRepo) (hM : localRepo.MainProject = .ok project)
    (hP : w.CurrentConfig.PromptForHost project.Host = .ok host)
    (hO : Located localRepo originRemote)
    (hR : (w.NewClient project.Host).Repository (NewProject "ACME" project.Name project.Host)
      = .error e)
    (hF : (w.NewClient project.Host).ForkRepository project [("organization", "ACME")]
      = .ok newRepo) :
    forkRepositoryCalls (fork w flags args)
        = [Call.ForkRepository project [("organization", "ACME")]] ∧
      (fork w flags args).fatal = none ∧
      (fork w flags args).args.beforeChain = args.beforeChain ++
        [gitRemoteAdd "ACME" originRemote.URL,
          gitRemoteSetURL "ACME"
            (w.GitURL { Owner := newRepo.Owner.Login, Name := newRepo.Name,
                        Host := project.Host } "" "" true)] := by
  obtain ⟨calls, hNS, hEq⟩ := fork_located w flags args localRepo project host originRemote
    hL hM hP hO
  have hOwner : plannedOwner flags host = "ACME" := by simp [plannedOwner, hOrg]
  have hParams : plannedParams flags = [("organization", "ACME")] := by
    simp [plannedParams, hOrg]
  have hRemote : plannedRemoteName flags "ACME" = "ACME" := by
    simp [plannedRemoteName, hName]
  have hProj : plannedProject flags host project
      = NewProject "ACME" project.Name project.Host := by
    simp [plannedProject, hOwner]
  rw [hEq, planAndReconcile_eq]
  simp only [hProj, hParams, hOwner, hRemote, hR, hF, hN, emit_eq, hNR]
  simp [forkRepositoryCalls, List.filter_append, hNS.2]

/-- Witness for C4: `alice` runs `hub fork --org=ACME` and the service creates
`ACME/hub`. -/
theorem fork_into_organization_witness :
    forkRepositoryCalls (fork (worldOf checkout (freshService "ACME")) orgACME freshArgs)
        = [Call.ForkRepository hubProject [("organization", "ACME")]] ∧
      (fork (worldOf checkout (freshService "ACME")) orgACME freshArgs).fatal = none ∧
      (fork (worldOf checkout (freshService "ACME")) orgACME freshArgs).args.beforeChain
        = freshArgs.beforeChain ++
        [gitRemoteAdd "ACME" originOfHub.URL,
          gitRemoteSetURL "ACME"
            ((worldOf checkout (freshService "ACME")).GitURL
              { Owner := "ACME", Name := "hub", Host := hubProject.Host } "" "" true)] :=
  fork_into_organization (worldOf checkout (freshService "ACME")) orgACME freshArgs checkout
    hubProject alice originOfHub "Not Found"
    { Name := "hub", Owner := { Login := "ACME" }, Parent := none }
    rfl rfl rfl rfl rfl rfl rfl (Or.inl rfl) rfl rfl

/-- C5, as stated, fails: in a dry run with remote provisioning enabled and the
Resolver and Locator succeeding, when the lookup finds a repository at the planned
coordinates that declares no parent, the run halts with the already-exists error and
no command is scheduled. -/
theorem fork_dry_run_unrelated_repository :
    dryArgs.Noop = true ∧ noFlags.flagForkNoRemote = false ∧
      (worldOf checkout occupiedService).LocalRepo = .ok checkout ∧
      checkout.MainProject = .ok hubProject ∧
      (worldOf checkout occupiedService).CurrentConfig.PromptForHost hubProject.Host
        = .ok alice ∧
      checkout.OriginRemote = .ok originOfHub ∧
      ((worldOf checkout occupiedService).NewClient hubProject.Host).Repository
          (NewProject "alice" "hub" "github.com")
        = .ok { Name := "hub", Owner := { Login := "alice" }, Parent := none } ∧
      (fork (worldOf checkout occupiedService) noFlags dryArgs).fatal
        = some "Error creating fork: alice/hub already exists on github.com" ∧
      (fork (worldOf checkout occupiedService) noFlags dryArgs).args.beforeChain = [] ∧
      (fork (worldOf checkout occupiedService) noFlags dryArgs).args.afterChain = [] := by
  refine ⟨rfl, rfl, rfl, rfl, rfl, rfl, rfl, ?_, ?_, ?_⟩ <;> decide

/-- C5, amended: in a dry run with remote provisioning enabled and the Resolver and
Locator succeeding, `ForkRepository` is never called, whatever the lookup returns;
and unless the lookup finds a repository that fails the parent test (so: on a lookup
error, or on a repository that is a fork of the source), the run succeeds and
schedules `git remote add -f N <source remote URL>` then `git remote set-url N U`
with `U` the git URL of the planned project (fork owner, source name, source host). -/
theorem fork_dry_run (w : World) (flags : Flags) (args : Args)
    (localRepo : GitHubRepo) (project : Project) (host : Host) (originRemote : Remote)
    (hL : w.LocalRepo = .ok localRepo) (hM : localRepo.MainProject = .ok project)
    (hP : w.CurrentConfig.PromptForHost project.Host = .ok host)
    (hO : Located localRepo originRemote)
    (hN : args.Noop = true) (hNR : flags.flagForkNoRemote = false) :
    forkRepositoryCalls (fork w flags args) = [] ∧
      ((∀ existingRepo,
          (w.NewClient project.Host).Repository (plannedProject flags host project)
            = .ok existingRepo → parentMismatch w project existingRepo = false) →
        (fork w flags args).fatal = none ∧
        (fork w flags args).args.beforeChain = args.beforeChain ++
          [gitRemoteAdd (plannedRemoteName flags (plannedOwner flags host)) originRemote.URL,
            gitRemoteSetURL (plannedRemoteName flags (plannedOwner flags host))
              (w.GitURL (NewProject (plannedOwner flags host) project.Name project.Host)
                "" "" true)]) := by
  obtain ⟨calls, hNS, hEq⟩ := fork_located w flags args localRepo project host originRemote
    hL hM hP hO
  rw [hEq, planAndReconcile_eq]
  cases hR : (w.NewClient project.Host).Repository (plannedProject flags host project) with
  | error e =>
    simp [hN, emit_eq, hNR, forkRepositoryCalls, List.filter_append, hNS.2, plannedProject]
  | ok existingRepo =>
    cases hMis : parentMismatch w project existingRepo with
    | true => simp [Check, forkRepositoryCalls, List.filter_append, hNS.2, hMis]
    | false =>
      simp [hMis, emit_eq, hNR, forkRepositoryCalls, List.filter_append, hNS.2,
        plannedProject]

/-- Witness for C5 amended: a dry run of `hub fork` when no fork exists yet. -/
theorem fork_dry_run_witness :
    forkRepositoryCalls (fork (worldOf checkout (freshService "alice")) noFlags dryArgs) = [] ∧
      ((∀ existingRepo,
          ((worldOf checkout (freshService "alice")).NewClient hubProject.Host).Repository
              (plannedProject noFlags alice hubProject) = .ok existingRepo →
            parentMismatch (worldOf checkout (freshService "alice")) hubProject existingRepo
              = false) →
        (fork (worldOf checkout (freshService "alice")) noFlags dryArgs).fatal = none ∧
        (fork (worldOf checkout (freshService "alice")) noFlags dryArgs).args.beforeChain
          = dryArgs.beforeChain ++
          [gitRemoteAdd (plannedRemoteName noFlags (plannedOwner noFlags alice)) originOfHub.URL,
            gitRemoteSetURL (plannedRemoteName noFlags (plannedOwner noFlags alice))
              ((worldOf checkout (freshService "alice")).GitURL
                (NewProject (plannedOwner noFlags alice) hubProject.Name hubProject.Host)
                "" "" true)]) :=
  fork_dry_run (worldOf checkout (freshService "alice")) noFlags dryArgs checkout hubProject
    alice originOfHub rfl rfl rfl (Or.inl rfl) rfl rfl

/-- The Planner, Reconciler and Emitter either halt with the command runner state
untouched, or succeed with forwarding suppressed and, according to `--no-remote`,
nothing or both commands and the notification scheduled; the calls they add are
hosting-service calls, and the source URL of the `add` command is the located
remote's. -/
theorem planAndReconcile_outcome (w : World) (flags : Flags) (args : Args)
    (calls : List Call) (project : Project) (host : Host) (originRemote : Remote) :
    ∃ extra forkURL,
      (planAndReconcile w flags args calls project host originRemote).calls = calls ++ extra ∧
      extra.filter (fun c => match c with | Call.RemoteByName _ => true | _ => false) = [] ∧
      (((∃ e, (planAndReconcile w flags args calls project host originRemote).fatal = some e) ∧
          (planAndReconcile w flags args calls project host originRemote).args = args) ∨
        ((planAndReconcile w flags args calls project host originRemote).fatal = none ∧
          flags.flagForkNoRemote = true ∧
          (planAndReconcile w flags args calls project host originRemote).args
            = args.NoForward) ∨
        ((planAndReconcile w flags args calls project host originRemote).fatal = none ∧
          flags.flagForkNoRemote = false ∧
          (planAndReconcile w flags args calls project host originRemote).args =
            { Noop := args.Noop, noForward := true
              beforeChain := args.beforeChain ++
                [gitRemoteAdd (plannedRemoteName flags (plannedOwner flags host))
                    originRemote.URL,
                  gitRemoteSetURL (plannedRemoteName flags (plannedOwner flags host)) forkURL]
              afterChain := args.afterChain ++
                [newRemoteNotice (plannedRemoteName flags (plannedOwner flags host))] })) := by
  rw [planAndReconcile_eq]
  cases hR : (w.NewClient project.Host).Repository (plannedProject flags host project) with
  | ok existingRepo =>
    cases hMis : parentMismatch w project existingRepo with
    | true =>
      exact ⟨[Call.Repository (plannedProject flags host project)], "", by simp [Check, hMis]⟩
    | false =>
      refine ⟨[Call.Repository (plannedProject flags host project)],
        w.GitURL (plannedProject flags host project) "" "" true, ?_⟩
      cases hNR : flags.flagForkNoRemote <;> simp [emit_eq, hNR, hMis]
  | error e =>
    cases hN : args.Noop with
    | true =>
      refine ⟨[Call.Repository (plannedProject flags host project)],
        w.GitURL (plannedProject flags host project) "" "" true, ?_⟩
      cases hNR : flags.flagForkNoRemote <;> simp [emit_eq, hNR, hN]
    | false =>
      cases hF : (w.NewClient project.Host).ForkRepository project (plannedParams flags) with
      | error err =>
        exact ⟨[Call.Repository (plannedProject flags host project),
          Call.ForkRepository project (plannedParams flags)], "", by simp [Check, hN, hF]⟩
      | ok newRepo =>
        refine ⟨[Call.Repository (plannedProject flags host project),
          Call.ForkRepository project (plannedParams flags)],
          w.GitURL { Owner := newRepo.Owner.Login, Name := newRepo.Name,
                     Host := project.Host } "" "" true, ?_⟩
        cases hNR : flags.flagForkNoRemote <;> simp [emit_eq, hNR, hN, hF]

/-- Every run of `fork` either halts with the command runner state untouched, or
succeeds with forwarding suppressed and, according to `--no-remote`, nothing or both
commands and the notification scheduled. -/
theorem fork_outcome (w : World) (flags : Flags) (args : Args) :
    ((∃ e, (fork w flags args).fatal = some e) ∧ (fork w flags args).args = args) ∨
      ((fork w flags args).fatal = none ∧ flags.flagForkNoRemote = true ∧
        (fork w flags args).args = args.NoForward) ∨
      ((fork w flags args).fatal = none ∧ flags.flagForkNoRemote = false ∧
        ∃ name sourceURL forkURL,
          (fork w flags args).args =
            { Noop := args.Noop, noForward := true
              beforeChain := args.beforeChain ++
                [gitRemoteAdd name sourceURL, gitRemoteSetURL name forkURL]
              afterChain := args.afterChain ++ [newRemoteNotice name] }) := by
  have key : ∀ calls project host originRemote,
      fork w flags args = planAndReconcile w flags args calls project host originRemote →
      (((∃ e, (fork w flags args).fatal = some e) ∧ (fork w flags args).args = args) ∨
      ((fork w flags args).fatal = none ∧ flags.flagForkNoRemote = true ∧
        (fork w flags args).args = args.NoForward) ∨
      ((fork w flags args).fatal = none ∧ flags.flagForkNoRemote = false ∧
        ∃ name sourceURL forkURL,
          (fork w flags args).args =
            { Noop := args.Noop, noForward := true
              beforeChain := args.beforeChain ++
                [gitRemoteAdd name sourceURL, gitRemoteSetURL name forkURL]
              afterChain := args.afterChain ++ [newRemoteNotice name] })) := by
    intro calls project host originRemote hEq
    obtain ⟨extra, forkURL, -, -, h⟩ :=
      planAndReconcile_outcome w flags args calls project host originRemote
    rw [hEq]
    rcases h with h | h | ⟨h1, h2, h3⟩
    · exact Or.inl h
    · exact Or.inr (Or.inl h)
    · exact Or.inr (Or.inr ⟨h1, h2, _, _, forkURL, h3⟩)
  cases hL : w.LocalRepo with
  | error err => left; simp [fork, hL, Check]
  | ok localRepo =>
    cases hM : localRepo.MainProject with
    | error err => left; simp [fork, hL, hM, Check]
    | ok project =>
      cases hP : w.CurrentConfig.PromptForHost project.Host with
      | error err => left; simp [fork, hL, hM, hP, Check]
      | ok host =>
        cases hO : localRepo.OriginRemote with
        | ok originRemote =>
          exact key _ project host originRemote
            (fork_viaOrigin w flags args localRepo project host originRemote hL hM hP hO)
        | error e =>
          cases hU : localRepo.RemoteByName "upstream" with
          | error err => left; simp [fork, hL, hM, hP, hO, hU, Check]
          | ok originRemote =>
            exact key _ project host originRemote
              (fork_viaUpstream w flags args localRepo project host originRemote e
                hL hM hP hO hU)

/-- C6: all-or-nothing.  For every world, flags and incoming command runner state: if
`fork` halts with a fatal error, it has scheduled no command and no notification;
and if it has scheduled at least one command, the run completed without error and
has scheduled exactly the two commands `git remote add -f` and `git remote set-url`
for one remote name, and the notification for that name. -/
theorem fork_all_or_nothing (w : World) (flags : Flags) (args : Args) :
    ((fork w flags args).fatal ≠ none →
        (fork w flags args).args.beforeChain = args.beforeChain ∧
        (fork w flags args).args.afterChain = args.afterChain) ∧
      ((fork w flags args).args.beforeChain ≠ args.beforeChain →
        (fork w flags args).fatal = none ∧
        ∃ name sourceURL forkURL,
          (fork w flags args).args.beforeChain = args.beforeChain ++
            [gitRemoteAdd name sourceURL, gitRemoteSetURL name forkURL] ∧
          (fork w flags args).args.afterChain = args.afterChain ++ [newRemoteNotice name]) := by
  rcases fork_outcome w flags args with ⟨-, h⟩ | ⟨h1, -, h3⟩ | ⟨h1, -, name, s, u, h3⟩
  · simp [h]
  · simp [h1, h3, Args.NoForward]
  · refine ⟨by simp [h1], fun _ => ⟨h1, name, s, u, ?_, ?_⟩⟩ <;> simp [h3]

/-- Witness for C6: a run that halts at the creation request has scheduled nothing,
and a run that has scheduled a command has succeeded. -/
theorem fork_all_or_nothing_witness :
    ((fork (worldOf checkout refusingService) noFlags freshArgs).fatal ≠ none ∧
        (fork (worldOf checkout refusingService) noFlags freshArgs).args.beforeChain
          = freshArgs.beforeChain ∧
        (fork (worldOf checkout refusingService) noFlags freshArgs).args.afterChain
          = freshArgs.afterChain) ∧
      ((fork (worldOf checkout (freshService "alice")) noFlags freshArgs).args.beforeChain
          ≠ freshArgs.beforeChain ∧
        (fork (worldOf checkout (freshService "alice")) noFlags freshArgs).fatal = none ∧
        ∃ name sourceURL forkURL,
          (fork (worldOf checkout (freshService "alice")) noFlags freshArgs).args.beforeChain
            = freshArgs.beforeChain ++
              [gitRemoteAdd name sourceURL, gitRemoteSetURL name forkURL] ∧
          (fork (worldOf checkout (freshService "alice")) noFlags freshArgs).args.afterChain
            = freshArgs.afterChain ++ [newRemoteNotice name]) :=
  ⟨⟨by decide,
      (fork_all_or_nothing (worldOf checkout refusingService) noFlags freshArgs).1 (by decide)⟩,
    ⟨by decide,
      (fork_all_or_nothing (worldOf checkout (freshService "alice")) noFlags freshArgs).2
        (by decide)⟩⟩

/-- The Resolver and Locator do not read the flags: either they halt, with the same
calls and error for all flags, or they hand the same project, host and source remote
to the Planner for all flags. -/
theorem fork_resolve (w : World) (args : Args) :
    (∃ calls err, ∀ flags, fork w flags args = Check calls args err) ∨
      (∃ calls project host originRemote,
        ∀ flags, fork w flags args
          = planAndReconcile w flags args calls project host originRemote) := by
  cases hL : w.LocalRepo with
  | error err => exact Or.inl ⟨[Call.LocalRepo], err, fun flags => by simp [fork, hL]⟩
  | ok localRepo =>
    cases hM : localRepo.MainProject with
    | error err =>
      exact Or.inl ⟨[Call.LocalRepo, Call.MainProject],
        "Error: repository under 'origin' remote is not a GitHub project",
        fun flags => by simp [fork, hL, hM]⟩
    | ok project =>
      cases hP : w.CurrentConfig.PromptForHost project.Host with
      | error err =>
        exact Or.inl ⟨[Call.LocalRepo, Call.MainProject, Call.PromptForHost project.Host],
          w.FormatError "forking repository" err, fun flags => by simp [fork, hL, hM, hP]⟩
      | ok host =>
        cases hO : localRepo.OriginRemote with
        | ok originRemote =>
          exact Or.inr ⟨_, project, host, originRemote, fun flags =>
            fork_viaOrigin w flags args localRepo project host originRemote hL hM hP hO⟩
        | error e =>
          cases hU : localRepo.RemoteByName "upstream" with
          | error err =>
            exact Or.inl ⟨callsViaUpstream project,
              "Error creating fork: No origin git remote found",
              fun flags => by simp [fork, hL, hM, hP, hO, hU, callsViaUpstream]⟩
          | ok originRemote =>
            exact Or.inr ⟨_, project, host, originRemote, fun flags =>
              fork_viaUpstream w flags args localRepo project host originRemote e
                hL hM hP hO hU⟩

/-- The calls and the error of the Planner, Reconciler and Emitter do not depend on
`--no-remote`. -/
theorem planAndReconcile_noRemote (w : World) (flags : Flags) (args : Args)
    (calls : List Call) (project : Project) (host : Host) (originRemote : Remote)
    (b : Bool) :
    (planAndReconcile w { flags with flagForkNoRemote := b } args calls project host
        originRemote).calls
      = (planAndReconcile w flags args calls project host originRemote).calls ∧
    (planAndReconcile w { flags with flagForkNoRemote := b } args calls project host
        originRemote).fatal
      = (planAndReconcile w flags args calls project host originRemote).fatal := by
  have h1 : plannedProject { flags with flagForkNoRemote := b } host project
      = plannedProject flags host project := rfl
  have h2 : plannedParams { flags with flagForkNoRemote := b } = plannedParams flags := rfl
  rw [planAndReconcile_eq, planAndReconcile_eq, h1, h2]
  cases hR : (w.NewClient project.Host).Repository (plannedProject flags host project) with
  | ok existingRepo =>
    cases hMis : parentMismatch w project existingRepo <;>
      cases hNR : flags.flagForkNoRemote <;> cases b <;> simp [emit_eq, Check, hMis, hNR]
  | error e =>
    cases hN : args.Noop with
    | true => cases hNR : flags.flagForkNoRemote <;> cases b <;> simp [emit_eq, hN, hNR]
    | false =>
      cases hF : (w.NewClient project.Host).ForkRepository project (plannedParams flags) <;>
        cases hNR : flags.flagForkNoRemote <;> cases b <;>
          simp [emit_eq, Check, hN, hF, hNR]

/-- C7, as stated, fails: in a checkout without remotes whose main project cannot be
determined, `OriginRemote()` and `RemoteByName("upstream")` both fail, yet `fork`
halts with the not-a-GitHub-project error, not with the no-origin-remote error. -/
theorem fork_no_remotes_other_error :
    (worldOf checkoutNoRemotes (freshService "alice")).LocalRepo = .ok checkoutNoRemotes ∧
      checkoutNoRemotes.OriginRemote = .error "no remotes" ∧
      checkoutNoRemotes.RemoteByName "upstream" = .error "no such remote" ∧
      (fork (worldOf checkoutNoRemotes (freshService "alice")) noFlags freshArgs).fatal
        = some "Error: repository under 'origin' remote is not a GitHub project" ∧
      (fork (worldOf checkoutNoRemotes (freshService "alice")) noFlags freshArgs).fatal
        ≠ some "Error creating fork: No origin git remote found" := by
  refine ⟨rfl, rfl, rfl, ?_, ?_⟩ <;> decide

/-- C7, amended: whenever `OriginRemote()` and `RemoteByName("upstream")` both fail,
`fork` halts with a fatal error, has made no hosting-service call (neither
`Repository` nor `ForkRepository`) and has consulted no remote by a name other than
`upstream`; and when moreover `MainProject` and `PromptForHost` succeed, the error is
"Error creating fork: No origin git remote found". -/
theorem fork_no_source_remote (w : World) (flags : Flags) (args : Args)
    (localRepo : GitHubRepo) (e1 e2 : Error)
    (hL : w.LocalRepo = .ok localRepo)
    (hO : localRepo.OriginRemote = .error e1)
    (hU : localRepo.RemoteByName "upstream" = .error e2) :
    (∃ err, (fork w flags args).fatal = some err) ∧
      repositoryCalls (fork w flags args) = [] ∧
      forkRepositoryCalls (fork w flags args) = [] ∧
      (∀ name, Call.RemoteByName name ∈ (fork w flags args).calls → name = "upstream") ∧
      (∀ project host, localRepo.MainProject = .ok project →
        w.CurrentConfig.PromptForHost project.Host = .ok host →
        (fork w flags args).fatal = some "Error creating fork: No origin git remote found") := by
  have h : (∃ err, (fork w flags args).fatal = some err) ∧
      repositoryCalls (fork w flags args) = [] ∧
      forkRepositoryCalls (fork w flags args) = [] ∧
      (∀ name, Call.RemoteByName name ∈ (fork w flags args).calls → name = "upstream") := by
    cases hM : localRepo.MainProject with
    | error err => simp [fork, hL, hM, Check, repositoryCalls, forkRepositoryCalls]
    | ok project =>
      cases hP : w.CurrentConfig.PromptForHost project.Host with
      | error err => simp [fork, hL, hM, hP, Check, repositoryCalls, forkRepositoryCalls]
      | ok host =>
        simp [fork, hL, hM, hP, hO, hU, Check, repositoryCalls, forkRepositoryCalls]
  exact ⟨h.1, h.2.1, h.2.2.1, h.2.2.2, fun project host hM hP => by
    simp [fork, hL, hM, hP, hO, hU, Check]⟩

/-- Witness for C7 amended: a checkout of `github/hub` with neither `origin` nor
`upstream`. -/
theorem fork_no_source_remote_witness :
    (∃ err, (fork (worldOf checkoutNoSource (freshService "alice")) noFlags freshArgs).fatal
        = some err) ∧
      repositoryCalls (fork (worldOf checkoutNoSource (freshService "alice")) noFlags freshArgs)
        = [] ∧
      forkRepositoryCalls
        (fork (worldOf checkoutNoSource (freshService "alice")) noFlags freshArgs) = [] ∧
      (∀ name, Call.RemoteByName name
          ∈ (fork (worldOf checkoutNoSource (freshService "alice")) noFlags freshArgs).calls →
        name = "upstream") ∧
      (∀ project host, checkoutNoSource.MainProject = .ok project →
        (worldOf checkoutNoSource (freshService "alice")).CurrentConfig.PromptForHost
          project.Host = .ok host →
        (fork (worldOf checkoutNoSource (freshService "alice")) noFlags freshArgs).fatal
          = some "Error creating fork: No origin git remote found") :=
  fork_no_source_remote (worldOf checkoutNoSource (freshService "alice")) noFlags freshArgs
    checkoutNoSource "no remotes" "no such remote" rfl rfl rfl

/-- C8: in every run that reaches the Emitter with remote provisioning enabled, the
scheduled commands are `git remote add -f <name> <url>` then `git remote set-url`;
if `OriginRemote()` succeeds, `<url>` is the URL of the remote it returns and
`RemoteByName` is not called at all; if `OriginRemote()` fails, `RemoteByName` is
called once, with `upstream`, it succeeds, and `<url>` is the URL of the remote it
returns. -/
theorem fork_source_remote_selection (w : World) (flags : Flags) (args : Args)
    (localRepo : GitHubRepo)
    (hL : w.LocalRepo = .ok localRepo)
    (hNR : flags.flagForkNoRemote = false)
    (hOK : (fork w flags args).fatal = none) :
    (∀ origin, localRepo.OriginRemote = .ok origin →
        remoteByNameCalls (fork w flags args) = [] ∧
        ∃ name forkURL, (fork w flags args).args.beforeChain = args.beforeChain ++
          [gitRemoteAdd name origin.URL, gitRemoteSetURL name forkURL]) ∧
      (∀ e, localRepo.OriginRemote = .error e →
        ∃ upstream, localRepo.RemoteByName "upstream" = .ok upstream ∧
          remoteByNameCalls (fork w flags args) = [Call.RemoteByName "upstream"] ∧
          ∃ name forkURL, (fork w flags args).args.beforeChain = args.beforeChain ++
            [gitRemoteAdd name upstream.URL, gitRemoteSetURL name forkURL]) := by
  have key : ∀ calls project host originRemote,
      fork w flags args = planAndReconcile w flags args calls project host originRemote →
      remoteByNameCalls (fork w flags args)
          = calls.filter (fun c => match c with | Call.RemoteByName _ => true | _ => false) ∧
        ∃ name forkURL, (fork w flags args).args.beforeChain = args.beforeChain ++
          [gitRemoteAdd name originRemote.URL, gitRemoteSetURL name forkURL] := by
    intro calls project host originRemote hEq
    obtain ⟨extra, forkURL, hc, hx, h⟩ :=
      planAndReconcile_outcome w flags args calls project host originRemote
    rw [← hEq] at hc h
    rcases h with ⟨⟨e, he⟩, -⟩ | ⟨-, h2, -⟩ | ⟨-, -, h3⟩
    · rw [hOK] at he
      cases he
    · rw [hNR] at h2
      cases h2
    · exact ⟨by simp [remoteByNameCalls, hc, List.filter_append, hx],
        plannedRemoteName flags (plannedOwner flags host), forkURL, by simp [h3]⟩
  cases hM : localRepo.MainProject with
  | error err => simp [fork, hL, hM, Check] at hOK
  | ok project =>
    cases hP : w.CurrentConfig.PromptForHost project.Host with
    | error err => simp [fork, hL, hM, hP, Check] at hOK
    | ok host =>
      cases hO : localRepo.OriginRemote with
      | ok origin =>
        have h := key _ project host origin
          (fork_viaOrigin w flags args localRepo project host origin hL hM hP hO)
        refine ⟨fun origin2 h2 => ?_, fun e h2 => by cases h2⟩
        cases h2
        exact ⟨by simpa [callsViaOrigin] using h.1, h.2⟩
      | error e =>
        cases hU : localRepo.RemoteByName "upstream" with
        | error err => simp [fork, hL, hM, hP, hO, hU, Check] at hOK
        | ok upstream =>
          have h := key _ project host upstream
            (fork_viaUpstream w flags args localRepo project host upstream e hL hM hP hO hU)
          refine ⟨fun origin2 h2 => (by cases h2), fun e2 _ => ⟨upstream, rfl, ?_, h.2⟩⟩
          simpa [callsViaUpstream] using h.1

/-- Witness for C8: a dry run of `hub fork --remote-name=mine` from a checkout that has
both `origin` and `upstream`. -/
theorem fork_source_remote_selection_witness :
    (∀ origin, checkout.OriginRemote = .ok origin →
        remoteByNameCalls (fork (worldOf checkout (freshService "alice")) namedMine dryArgs)
          = [] ∧
        ∃ name forkURL,
          (fork (worldOf checkout (freshService "alice")) namedMine dryArgs).args.beforeChain
            = dryArgs.beforeChain ++
              [gitRemoteAdd name origin.URL, gitRemoteSetURL name forkURL]) ∧
      (∀ e, checkout.OriginRemote = .error e →
        ∃ upstream, checkout.RemoteByName "upstream" = .ok upstream ∧
          remoteByNameCalls (fork (worldOf checkout (freshService "alice")) namedMine dryArgs)
            = [Call.RemoteByName "upstream"] ∧
          ∃ name forkURL,
            (fork (worldOf checkout (freshService "alice")) namedMine dryArgs).args.beforeChain
              = dryArgs.beforeChain ++
                [gitRemoteAdd name upstream.URL, gitRemoteSetURL name forkURL]) :=
  fork_source_remote_selection (worldOf checkout (freshService "alice")) namedMine dryArgs
    checkout rfl rfl (by decide)

/-- C9: when `--no-remote` is set, for every world, other flags and incoming command
runner state, `fork` schedules no command and no notification; the collaborator calls
it makes (the repository lookup and the creation request among them) and its fatal
error or success are those of the same run without `--no-remote`; and on success
forwarding is suppressed. -/
theorem fork_no_remote (w : World) (flags : Flags) (args : Args)
    (hNR : flags.flagForkNoRemote = true) :
    (fork w flags args).args.beforeChain = args.beforeChain ∧
      (fork w flags args).args.afterChain = args.afterChain ∧
      (fork w flags args).calls
        = (fork w { flags with flagForkNoRemote := false } args).calls ∧
      (fork w flags args).fatal
        = (fork w { flags with flagForkNoRemote := false } args).fatal ∧
      ((fork w flags args).fatal = none → (fork w flags args).args.noForward = true) := by
  have hSame : (fork w flags args).calls
        = (fork w { flags with flagForkNoRemote := false } args).calls ∧
      (fork w flags args).fatal
        = (fork w { flags with flagForkNoRemote := false } args).fatal := by
    rcases fork_resolve w args with ⟨calls, err, h⟩ | ⟨calls, project, host, originRemote, h⟩
    · rw [h flags, h { flags with flagForkNoRemote := false }]
      exact ⟨rfl, rfl⟩
    · rw [h flags, h { flags with flagForkNoRemote := false }]
      have := planAndReconcile_noRemote w flags args calls project host originRemote false
      exact ⟨this.1.symm, this.2.symm⟩
  rcases fork_outcome w flags args with ⟨⟨e, he⟩, h⟩ | ⟨h1, -, h3⟩ | ⟨-, h2, -⟩
  · exact ⟨by rw [h], by rw [h], hSame.1, hSame.2, fun hn => by rw [he] at hn; cases hn⟩
  · exact ⟨by rw [h3]; rfl, by rw [h3]; rfl, hSame.1, hSame.2, fun _ => by rw [h3]; rfl⟩
  · rw [hNR] at h2
    cases h2

/-- Witness for C9: `hub fork --no-remote` creating a fork. -/
theorem fork_no_remote_witness :
    (fork (worldOf checkout (freshService "alice"))
        { flagForkNoRemote := true, flagForkOrganization := "", flagForkRemoteName := "" }
        freshArgs).args.beforeChain = freshArgs.beforeChain ∧
      (fork (worldOf checkout (freshService "alice"))
        { flagForkNoRemote := true, flagForkOrganization := "", flagForkRemoteName := "" }
        freshArgs).args.afterChain = freshArgs.afterChain ∧
      (fork (worldOf checkout (freshService "alice"))
        { flagForkNoRemote := true, flagForkOrganization := "", flagForkRemoteName := "" }
        freshArgs).calls
        = (fork (worldOf checkout (freshService "alice"))
            { ({ flagForkNoRemote := true, flagForkOrganization := "",
                 flagForkRemoteName := "" } : Flags) with flagForkNoRemote := false }
            freshArgs).calls ∧
      (fork (worldOf checkout (freshService "alice"))
        { flagForkNoRemote := true, flagForkOrganization := "", flagForkRemoteName := "" }
        freshArgs).fatal
        = (fork (worldOf checkout (freshService "alice"))
            { ({ flagForkNoRemote := true, flagForkOrganization := "",
                 flagForkRemoteName := "" } : Flags) with flagForkNoRemote := false }
            freshArgs).fatal ∧
      ((fork (worldOf checkout (freshService "alice"))
          { flagForkNoRemote := true, flagForkOrganization := "", flagForkRemoteName := "" }
          freshArgs).fatal = none →
        (fork (worldOf checkout (freshService "alice"))
          { flagForkNoRemote := true, flagForkOrganization := "", flagForkRemoteName := "" }
          freshArgs).args.noForward = true) :=
  fork_no_remote (worldOf checkout (freshService "alice"))
    { flagForkNoRemote := true, flagForkOrganization := "", flagForkRemoteName := "" }
    freshArgs rfl

/-- C10: the code at the help text's first example.  `alice` runs `hub fork` with no
flags in a checkout of `github/hub` whose `origin` is
`git@github.com:github/hub.git`; the service creates `alice/hub`, whose git URL is
`git@github.com:alice/hub.git`.  The run succeeds and schedules
`git remote add -f alice git@github.com:github/hub.git` followed by
`git remote set-url alice git@github.com:alice/hub.git`: the URL argument of the
`add` command is the source remote's URL, not the fork's. -/
theorem fork_add_command_url_is_source :
    (fork (worldOf checkout (freshService "alice")) noFlags freshArgs).fatal = none ∧
      (fork (worldOf checkout (freshService "alice")) noFlags freshArgs).args.beforeChain =
        [{ Name := "git",
           Args := ["remote", "add", "-f", "alice", "git@github.com:github/hub.git"] },
         { Name := "git",
           Args := ["remote", "set-url", "alice", "git@github.com:alice/hub.git"] }] ∧
      (worldOf checkout (freshService "alice")).GitURL
          { Owner := "alice", Name := "hub", Host := "github.com" } "" "" true
        = "git@github.com:alice/hub.git" ∧
      "git@github.com:github/hub.git" ≠
        (worldOf checkout (freshService "alice")).GitURL
          { Owner := "alice", Name := "hub", Host := "github.com" } "" "" true := by
  refine ⟨?_, ?_, ?_, ?_⟩ <;> decide

end Hub
